import Mathlib

/-!
Shallow embedding of src/lunax/models/utils.py and verification of its
specification claims.

Numbers that the Python code handles as floats are modelled as exact
rationals; the square roots taken by root_mean_squared_error and by the
pandas standard deviation land in the reals.  The third-party libraries
(numpy, pandas, scikit-learn, tabulate) are external collaborators of the
module; their entry points used by utils.py are modelled here by their
documented standard definitions, and the numpy pseudo-random shuffle by a
concrete deterministic generator, since no claim depends on the exact
permutation produced, only on its determinism in the seed.
-/

namespace Lunax

/-- String constant for the informational-line tag printed by the module. -/
def lunaxTag : String := "[lunax]>"

/-- Cell of a rendered report: a plain text fragment, a float value rendered
with a fixed number of decimal places (modelling a Python .Nf format), a real
float value rendered the same way, or an integer rendered with str. -/
inductive Cell where
  | str (s : String)
  | num (q : ℚ) (prec : ℕ)
  | numR (x : ℝ) (prec : ℕ)
  | int (n : ℤ)

/-- Console line: a print of an f-string (info) or a print of a tabulate
grid (table). -/
inductive RLine where
  | info (cells : List Cell)
  | table (rows : List (List Cell))

/-- Numpy ndarray model: a shape tuple together with the flat data buffer. -/
structure NDArray where
  shape : List ℕ
  data : List ℚ
deriving DecidableEq

/-- Error message raised by indexing a shape tuple out of range. -/
def indexErrMsg : String := "IndexError: tuple index out of range"

/-- Error message raised by indexing a non-2-D array with two indices. -/
def ndimErrMsg : String := "IndexError: wrong number of indices for array"

/-- Error message raised by metric calls on inputs of different lengths. -/
def lengthErrMsg : String := "ValueError: Found input variables with inconsistent numbers of samples"

/-- Error message raised by roc_auc_score when y_true holds one class. -/
def oneClassErrMsg : String := "ValueError: Only one class present in y_true. ROC AUC score is not defined in that case."

/-- Error message raised by roc_auc_score on a multiclass target with 1-D scores. -/
def multiclassErrMsg : String := "ValueError: multiclass format is not supported"

/-- Error message raised by roc_auc_score on an empty target. -/
def emptyErrMsg : String := "ValueError: Found array with 0 sample"

/-- Error message raised when the probability columns do not match the classes. -/
def classColsErrMsg : String := "ValueError: Number of classes in y_true not equal to the number of columns in y_score"

/-- Error message raised when multiclass probability rows do not sum to one. -/
def rowSumErrMsg : String := "ValueError: Target scores need to be probabilities for multiclass roc_auc"

/-- Error message raised by the fold splitters when k exceeds the sample count. -/
def nSplitsErrMsg : String := "ValueError: Cannot have number of splits greater than the number of samples"

/-- Error message raised by the fold splitter constructors when k is below 2. -/
def kTooSmallErrMsg : String := "ValueError: k-fold cross-validation requires at least one train test split"

/-- Error message raised by the stratified splitter when a class is rarer than k. -/
def stratifyErrMsg : String := "ValueError: n_splits cannot be greater than the number of members in each class"

/-- Shape lookup of an ndarray, as Python shape[i]: IndexError when the
axis does not exist. -/
def NDArray.dim (a : NDArray) (i : ℕ) : Except String ℕ :=
  match a.shape.get? i with
  | some d => Except.ok d
  | none => Except.error indexErrMsg

/-- Column extraction a[:, j] from a 2-D ndarray; fails on other ranks. -/
def NDArray.col (a : NDArray) (j : ℕ) : Except String (List ℚ) :=
  match a.shape with
  | [r, c] =>
      if j < c then Except.ok ((List.range r).map (fun i => a.data.getD (i * c + j) 0))
      else Except.error indexErrMsg
  | _ => Except.error ndimErrMsg

/-- Sum of row i of a 2-D ndarray with c columns. -/
def rowSum (a : NDArray) (i c : ℕ) : ℚ :=
  ((List.range c).map (fun j => a.data.getD (i * c + j) 0)).sum

/-- Insertion of an element into a list that is sorted for the test le. -/
def insertLe (le : α → α → Bool) (x : α) : List α → List α
  | [] => [x]
  | y :: ys => if le x y then x :: y :: ys else y :: insertLe le x ys

/-- Insertion sort by the boolean test le; models the sorted orders used by
numpy unique and pandas value_counts. -/
def insSort (le : α → α → Bool) : List α → List α
  | [] => []
  | x :: xs => insertLe le x (insSort le xs)

/-- Boolean comparison on rationals used for sorting class labels. -/
def qle (a b : ℚ) : Bool := decide (a ≤ b)

/-- Sorted list of the distinct class labels of a target, as numpy unique. -/
def sortedClasses (l : List ℚ) : List ℚ := insSort qle l.dedup

/-- Mean of a list of rationals, as numpy mean (sum over length). -/
def npMean (l : List ℚ) : ℚ := l.sum / l.length

/-- Modelled from the spec: deterministic linear congruential step standing
in for the numpy RandomState stream, an out-of-scope third-party collaborator;
every claim depends only on the shuffle being a fixed function of the seed. -/
def lcgNext (s : ℕ) : ℕ := (s * 1103515245 + 12345) % 2147483648

/-- Swap of two positions of a list of naturals. -/
def swapNat (l : List ℕ) (i j : ℕ) : List ℕ :=
  (l.set i (l.getD j 0)).set j (l.getD i 0)

/-- Modelled from the spec: Fisher-Yates shuffle driven by lcgNext, standing
in for numpy RandomState shuffle with the given seed. -/
def npShuffle (seed : ℕ) (l : List ℕ) : List ℕ :=
  (((List.range l.length).reverse.takeWhile (fun i => decide (1 ≤ i))).foldl
    (fun st i => let s := lcgNext st.1; (s, swapNat st.2 i (s % (i + 1))))
    (lcgNext seed, l)).2

/-- Sklearn KFold with shuffle=True: permute the row indices with the seed
drawn from random_state (or from ambient entropy when random_state is none),
then cut k contiguous validation blocks; the first n mod k blocks get one
extra row.  Training rows are the ascending complement. -/
def kFoldSplit (k : ℕ) (randomState : Option ℕ) (entropy : ℕ) (n : ℕ) :
    Except String (List (List ℕ × List ℕ)) :=
  if k < 2 then Except.error kTooSmallErrMsg
  else if n < k then Except.error nSplitsErrMsg
  else
    let perm := npShuffle (randomState.getD entropy) (List.range n)
    Except.ok ((List.range k).map (fun i =>
      let sz := n / k + (if i < n % k then 1 else 0)
      let st := i * (n / k) + min i (n % k)
      let val := (perm.drop st).take sz
      (((List.range n).filter (fun j => !(val.contains j))), val)))

/-- Sklearn StratifiedKFold with shuffle=True, modelled per its contract:
the rows of each class are shuffled with the seed and dealt into k chunks,
the i-th validation fold is the sorted union of the i-th chunks, and the
training rows are the ascending complement.  Fails when k is below 2, when
k exceeds the sample count, or when some class has fewer than k members. -/
def stratifiedKFoldSplit (k : ℕ) (randomState : Option ℕ) (entropy : ℕ) (y : List ℚ) :
    Except String (List (List ℕ × List ℕ)) :=
  let n := y.length
  if k < 2 then Except.error kTooSmallErrMsg
  else if n < k then Except.error nSplitsErrMsg
  else if (sortedClasses y).any (fun c => y.count c < k) then Except.error stratifyErrMsg
  else
    let seed := randomState.getD entropy
    Except.ok ((List.range k).map (fun i =>
      let val := insSort (fun a b => decide (a ≤ b))
        ((sortedClasses y).flatMap (fun c =>
          let idxs := npShuffle seed ((List.range n).filter (fun j => y.getD j 0 == c))
          let m := idxs.length
          let sz := m / k + (if i < m % k then 1 else 0)
          let st := i * (m / k) + min i (m % k)
          (idxs.drop st).take sz))
      (((List.range n).filter (fun j => !(val.contains j))), val)))

/-- Residual sum of squares of a prediction against a target. -/
def rss (yt yp : List ℚ) : ℚ := ((yt.zip yp).map (fun p => (p.1 - p.2) ^ 2)).sum

/-- Sklearn mean_squared_error: mean of the squared residuals. -/
def meanSquaredError (yt yp : List ℚ) : ℚ := rss yt yp / yt.length

/-- Sklearn mean_absolute_error: mean of the absolute residuals. -/
def meanAbsoluteError (yt yp : List ℚ) : ℚ :=
  ((yt.zip yp).map (fun p => |p.1 - p.2|)).sum / yt.length

/-- Total sum of squares of a target around its mean. -/
def tss (yt : List ℚ) : ℚ := (yt.map (fun v => (v - npMean yt) ^ 2)).sum

/-- Sklearn r2_score: one minus rss over tss, with the sklearn conventions
for a zero denominator (perfect prediction scores 1, any other scores 0). -/
def r2Score (yt yp : List ℚ) : ℚ :=
  if tss yt = 0 then (if rss yt yp = 0 then 1 else 0)
  else 1 - rss yt yp / tss yt

/-- Sklearn root_mean_squared_error: square root of mean_squared_error. -/
noncomputable def rootMeanSquaredError (yt yp : List ℚ) : ℝ :=
  Real.sqrt ((meanSquaredError yt yp : ℚ) : ℝ)

/-- Sklearn accuracy_score: fraction of positions where the labels agree. -/
def accuracyScore (yt yp : List ℚ) : ℚ :=
  (((yt.zip yp).countP (fun p => p.1 == p.2) : ℕ) : ℚ) / yt.length

/-- Count of positions predicted as class c that really are class c. -/
def truePos (yt yp : List ℚ) (c : ℚ) : ℕ :=
  (yt.zip yp).countP (fun p => p.1 == c && p.2 == c)

/-- Per-class precision with zero_division=0. -/
def precAt (yt yp : List ℚ) (c : ℚ) : ℚ :=
  if yp.count c = 0 then 0 else (truePos yt yp c : ℚ) / (yp.count c : ℚ)

/-- Per-class recall with zero division falling back to 0. -/
def recAt (yt yp : List ℚ) (c : ℚ) : ℚ :=
  if yt.count c = 0 then 0 else (truePos yt yp c : ℚ) / (yt.count c : ℚ)

/-- Per-class F1, the harmonic mean of per-class precision and recall, 0 when
both vanish. -/
def f1At (yt yp : List ℚ) (c : ℚ) : ℚ :=
  let p := precAt yt yp c
  let r := recAt yt yp c
  if p + r = 0 then 0 else 2 * p * r / (p + r)

/-- Support-weighted average of a per-class metric over the label set of
both vectors, normalised by the sample count, as sklearn average=weighted. -/
def weightedAvgBy (yt yp : List ℚ) (g : ℚ → ℚ) : ℚ :=
  (Finset.sum (yt ++ yp).toFinset (fun c => (yt.count c : ℚ) * g c)) / yt.length

/-- Sklearn precision_score with average=weighted and zero_division=0. -/
def precisionScore (yt yp : List ℚ) : ℚ := weightedAvgBy yt yp (precAt yt yp)

/-- Sklearn recall_score with average=weighted. -/
def recallScore (yt yp : List ℚ) : ℚ := weightedAvgBy yt yp (recAt yt yp)

/-- Sklearn f1_score with average=weighted. -/
def f1Score (yt yp : List ℚ) : ℚ := weightedAvgBy yt yp (f1At yt yp)

/-- Mann-Whitney form of the binary ROC AUC: over all positive-negative
pairs, the fraction where the positive score is larger, ties counting half. -/
def mannWhitneyAuc (isPos : List Bool) (scores : List ℚ) : ℚ :=
  let pairs := isPos.zip scores
  let pos := (pairs.filter (fun p => p.1)).map (fun p => p.2)
  let neg := (pairs.filter (fun p => !p.1)).map (fun p => p.2)
  ((pos.map (fun a => (neg.map (fun b =>
      if b < a then (1 : ℚ) else if b = a then 1 / 2 else 0)).sum)).sum) /
    ((pos.length : ℚ) * (neg.length : ℚ))

/-- Sklearn roc_auc_score on a score vector: requires a binary target, the
larger class label being the positive one. -/
def rocAucScoreBinary (yt scores : List ℚ) : Except String ℚ :=
  if scores.length ≠ yt.length then Except.error lengthErrMsg
  else
    match sortedClasses yt with
    | [] => Except.error emptyErrMsg
    | [_] => Except.error oneClassErrMsg
    | [_, b] => Except.ok (mannWhitneyAuc (yt.map (fun v => v == b)) scores)
    | _ => Except.error multiclassErrMsg

/-- Sklearn roc_auc_score with multi_class=ovr and average=weighted: checks
the probability matrix shape against the classes and that each row sums to
one, then averages the one-vs-rest per-class AUCs weighted by prevalence. -/
def rocAucScoreOvrWeighted (yt : List ℚ) (a : NDArray) : Except String ℚ :=
  match a.shape with
  | [r, c] =>
      if r ≠ yt.length then Except.error lengthErrMsg
      else
        let classes := sortedClasses yt
        if classes.length ≠ c then Except.error classColsErrMsg
        else if classes.length < 2 then Except.error oneClassErrMsg
        else if (List.range r).any (fun i => rowSum a i c != 1) then Except.error rowSumErrMsg
        else Except.ok ((((List.range c).map (fun j =>
          (yt.count (classes.getD j 0) : ℚ) *
            mannWhitneyAuc (yt.map (fun v => v == classes.getD j 0))
              ((List.range r).map (fun i => a.data.getD (i * c + j) 0)))).sum) /
          (yt.length : ℚ))
  | _ => Except.error ndimErrMsg

/-- Guarded AUC block of clf_evaluate: read shape[1]; with exactly 2 columns
take the positive-class column and score it, otherwise use the one-vs-rest
weighted multiclass score.  Every failure of any step surfaces as an error
value here. -/
def aucCompute (yt : List ℚ) (a : NDArray) : Except String ℚ := do
  let c ← a.dim 1
  if c = 2 then
    let scores ← a.col 1
    rocAucScoreBinary yt scores
  else
    rocAucScoreOvrWeighted yt a

/-- Pandas value_counts of a target: distinct labels with their counts in
descending count order. -/
def valueCounts (l : List ℚ) : List (ℚ × ℕ) :=
  insSort (fun a b => decide (b.2 ≤ a.2)) (l.dedup.map (fun c => (c, l.count c)))

/-- Minimum of a series. -/
def seriesMin (l : List ℚ) : ℚ := l.foldr min (l.getD 0 0)

/-- Maximum of a series. -/
def seriesMax (l : List ℚ) : ℚ := l.foldr max (l.getD 0 0)

/-- Pandas sample standard deviation (ddof = 1), landing in the reals. -/
noncomputable def seriesStd (l : List ℚ) : ℝ :=
  Real.sqrt (((l.map (fun v => (v - npMean l) ^ 2)).sum / ((l.length : ℚ) - 1) : ℚ) : ℝ)

/-- Median of a series. -/
def seriesMedian (l : List ℚ) : ℚ :=
  let s := insSort qle l
  if l.length % 2 = 1 then s.getD (l.length / 2) 0
  else (s.getD (l.length / 2 - 1) 0 + s.getD (l.length / 2) 0) / 2

/-- Text fragments of the console lines of the module. -/
def sLabelInfo : String := "[lunax]> label information:"

/-- Header line printed before each metric table. -/
def sEvalResults : String := "[lunax]> model evaluation results:"

/-- Header line printed before the regression target statistics. -/
def sTargetDesc : String := "[lunax]> target value description:"

/-- Fragment opening every per-fold report line. -/
def sFold : String := "[lunax]> Fold "

/-- Fragment opening the averaged report line. -/
def sAvg : String := "[lunax]> Average scores - "

/-- Fragment separating the fold counter from the fold total. -/
def sSlash : String := "/"

/-- Fragment introducing the first classification fold metric. -/
def sAccSep : String := " - Accuracy: "

/-- Fragment introducing the second classification fold metric. -/
def sF1Sep : String := ", F1: "

/-- Fragment introducing the first regression fold metric. -/
def sMseSep : String := " - MSE: "

/-- Fragment introducing the second regression fold metric. -/
def sR2Sep : String := ", R2: "

/-- Fragment naming the first averaged classification metric. -/
def sAccLbl : String := "Accuracy: "

/-- Fragment naming the first averaged regression metric. -/
def sMseLbl : String := "MSE: "

/-- Result of reg_evaluate: the four regression metrics at full precision. -/
structure RegResult where
  rmse : ℝ
  mse : ℚ
  mae : ℚ
  r2 : ℚ

/-- Embedding of reg_evaluate: compute rmse, mse, mae and r2, optionally
print the target statistics table and the metric table with every float
cell at 2 decimal places, and return the full-precision metrics. -/
noncomputable def regEvaluate (yt yp : List ℚ) (logInfo : Bool) :
    List RLine × RegResult :=
  let rmse := rootMeanSquaredError yt yp
  let mse := meanSquaredError yt yp
  let mae := meanAbsoluteError yt yp
  let r2 := r2Score yt yp
  let lines :=
    if logInfo then
      [RLine.info [Cell.str sTargetDesc],
       RLine.table
         [[Cell.str ("min"), Cell.str ("max"), Cell.str ("mean"), Cell.str ("std"),
           Cell.str ("median")],
          [Cell.num (seriesMin yt) 2, Cell.num (seriesMax yt) 2,
           Cell.num (npMean yt) 2, Cell.numR (seriesStd yt) 2,
           Cell.num (seriesMedian yt) 2]],
       RLine.info [Cell.str sEvalResults],
       RLine.table
         [[Cell.str ("metrics"), Cell.str ("rmse"), Cell.str ("mse"),
           Cell.str ("mae"), Cell.str ("r2")],
          [Cell.str ("values"), Cell.numR rmse 2, Cell.num mse 2,
           Cell.num mae 2, Cell.num r2 2]]]
    else []
  (lines, ⟨rmse, mse, mae, r2⟩)

/-- Entries appended to the classification mapping for the optional AUC. -/
def aucEntries : Option ℚ → List (String × ℚ)
  | some a => [("auc", a)]
  | none => []

/-- Embedding of clf_evaluate: compute accuracy and the weighted precision,
recall and F1, best-effort compute AUC from the optional probabilities with
every failure swallowed into none, optionally print the label distribution
and the metric table, and return the mapping with the auc key appended only
when the AUC value exists. -/
def clfEvaluate (yt yp : List ℚ) (yPredProba : Option NDArray) (logInfo : Bool) :
    List RLine × List (String × ℚ) :=
  let accV := accuracyScore yt yp
  let precV := precisionScore yt yp
  let recV := recallScore yt yp
  let f1V := f1Score yt yp
  let auc : Option ℚ :=
    match yPredProba with
    | none => none
    | some a => (aucCompute yt a).toOption
  let lines :=
    if logInfo then
      [RLine.info [Cell.str sLabelInfo],
       RLine.table ([[Cell.str ("label"), Cell.str ("count")]] ++
         (valueCounts yt).map (fun lc => [Cell.str (toString lc.1), Cell.int lc.2])),
       RLine.info [Cell.str sEvalResults],
       RLine.table
         [[Cell.str ("metrics"), Cell.str ("accuracy"), Cell.str ("precision"),
           Cell.str ("recall"), Cell.str ("f1")] ++
            (match auc with | some _ => [Cell.str ("auc")] | none => []),
          [Cell.str ("values"), Cell.num accV 2, Cell.num precV 2,
           Cell.num recV 2, Cell.num f1V 2] ++
            (match auc with | some a => [Cell.num a 2] | none => [])]]
    else []
  (lines,
    [("accuracy", accV), ("precision", precV), ("recall", recV), ("f1", f1V)] ++
      aucEntries auc)

/-- Model contract of the cross-validator: fitting on a training slice and
predicting on a validation slice, fused into one deterministic function. -/
def ModelFn : Type := List (List ℚ) → List ℚ → List (List ℚ) → List ℚ

/-- Per-fold metric pair of _cross_validate: fit on the training rows,
predict the validation rows, and score with (accuracy, weighted F1) for a
classifier and with (MSE, R2) for a regressor. -/
def foldScore (m : ModelFn) (X : List (List ℚ)) (y : List ℚ) (isClassifier : Bool)
    (tv : List ℕ × List ℕ) : ℚ × ℚ :=
  let xtr := tv.1.map (fun i => X.getD i [])
  let ytr := tv.1.map (fun i => y.getD i 0)
  let xva := tv.2.map (fun i => X.getD i [])
  let yva := tv.2.map (fun i => y.getD i 0)
  let yp := m xtr ytr xva
  if isClassifier then (accuracyScore yva yp, f1Score yva yp)
  else (meanSquaredError yva yp, r2Score yva yp)

/-- Cells of the f-string printed for one fold, both metrics at 4 decimal
places. -/
def foldCells (fold k : ℕ) (isClassifier : Bool) (m1 m2 : ℚ) : List Cell :=
  if isClassifier then
    [Cell.str sFold, Cell.int fold, Cell.str sSlash, Cell.int k,
     Cell.str sAccSep, Cell.num m1 4, Cell.str sF1Sep, Cell.num m2 4]
  else
    [Cell.str sFold, Cell.int fold, Cell.str sSlash, Cell.int k,
     Cell.str sMseSep, Cell.num m1 4, Cell.str sR2Sep, Cell.num m2 4]

/-- Cells of the f-string printed for the averaged scores, both metrics at
4 decimal places. -/
def avgCells (isClassifier : Bool) (m1 m2 : ℚ) : List Cell :=
  if isClassifier then
    [Cell.str sAvg, Cell.str sAccLbl, Cell.num m1 4, Cell.str sF1Sep, Cell.num m2 4]
  else
    [Cell.str sAvg, Cell.str sMseLbl, Cell.num m1 4, Cell.str sR2Sep, Cell.num m2 4]

/-- Embedding of _cross_validate: build the stratified or plain k-fold
splitter with random_state fixed at 42 (the ambient entropy is what the
splitter would consume were random_state not set), score every fold in
order, print one line per fold and one averaged line, and return nothing
but the console report.  Splitter failures propagate. -/
def crossValidate (m : ModelFn) (X : List (List ℚ)) (y : List ℚ) (kFold : ℕ)
    (isClassifier : Bool) (entropy : ℕ) : Except String (List RLine) := do
  let splits ←
    if isClassifier then stratifiedKFoldSplit kFold (some 42) entropy y
    else kFoldSplit kFold (some 42) entropy X.length
  let scores := splits.map (foldScore m X y isClassifier)
  let lines := (scores.enumFrom 1).map
    (fun s => RLine.info (foldCells s.1 kFold isClassifier s.2.1 s.2.2))
  pure (lines ++
    [RLine.info (avgCells isClassifier (npMean (scores.map Prod.fst))
      (npMean (scores.map Prod.snd)))])

/-- Decimal-place precisions of the float renderings inside one cell. -/
def cellPrecs : Cell → List ℕ
  | Cell.num _ p => [p]
  | Cell.numR _ p => [p]
  | _ => []

/-- Decimal-place precisions of every float rendering of a console line. -/
def linePrecs : RLine → List ℕ
  | RLine.info cs => cs.flatMap cellPrecs
  | RLine.table rows => rows.flatMap (fun r => r.flatMap cellPrecs)

/-- Decimal-place precisions of every float rendering of a report. -/
def reportPrecs (lines : List RLine) : List ℕ := lines.flatMap linePrecs

/-- Boolean test that a string begins with the lunax tag. -/
def taggedStr (s : String) : Bool := s.data.take 8 == lunaxTag.data

/-- Boolean test that an informational line opens with the lunax tag;
table lines are exempt. -/
def lineTagged : RLine → Bool
  | RLine.info (Cell.str s :: _) => taggedStr s
  | RLine.info _ => false
  | RLine.table _ => true

/-- Validity of a binary probability matrix for the AUC computation: two
columns matching the sample count and a target carrying exactly two
distinct classes. -/
def validBinaryProba (yt : List ℚ) (a : NDArray) : Prop :=
  a.shape = [yt.length, 2] ∧ (sortedClasses yt).length = 2

/-- Validity of a multiclass probability matrix for the AUC computation:
one column per class (not two), at least two classes, and every row summing
to one. -/
def validMultiProba (yt : List ℚ) (a : NDArray) : Prop :=
  ∃ c, a.shape = [yt.length, c] ∧ c ≠ 2 ∧ (sortedClasses yt).length = c ∧ 2 ≤ c ∧
    ((List.range yt.length).all (fun i => rowSum a i c == 1)) = true

/-- Well-formedness of a supplied probability array, binary or multiclass. -/
def wellFormedProba (yt : List ℚ) (a : NDArray) : Prop :=
  validBinaryProba yt a ∨ validMultiProba yt a

/-- Concrete 2-fold regression cross-validation run over two rows with a
constant-zero model, used to inspect the decimal precision of the report. -/
def c4run : List RLine :=
  (crossValidate (fun _ _ xv => xv.map (fun _ => (0 : ℚ))) [[1], [2]] [1, 2]
    2 false 0).toOption.getD []

lemma rss_self (l : List ℚ) : rss l l = 0 := by
  induction l with
  | nil => simp [rss]
  | cons a t ih => simp [rss, List.zip_cons_cons] at ih ⊢; simpa using ih

lemma mae_self (l : List ℚ) : meanAbsoluteError l l = 0 := by
  have h : ((l.zip l).map (fun p => |p.1 - p.2|)).sum = 0 := by
    induction l with
    | nil => simp
    | cons a t ih => simp [List.zip_cons_cons] at ih ⊢; simpa using ih
  simp [meanAbsoluteError, h]

lemma mse_self (l : List ℚ) : meanSquaredError l l = 0 := by
  simp [meanSquaredError, rss_self]

lemma r2Score_self (l : List ℚ) : r2Score l l = 1 := by
  unfold r2Score
  rcases eq_or_ne (tss l) 0 with h | h <;> simp [h, rss_self]

lemma rmse_self (l : List ℚ) : rootMeanSquaredError l l = 0 := by
  simp [rootMeanSquaredError, mse_self]

lemma rss_nonneg (yt yp : List ℚ) : 0 ≤ rss yt yp := by
  refine List.sum_nonneg ?_
  intro x hx
  obtain ⟨p, _, rfl⟩ := List.mem_map.mp hx
  positivity

lemma mse_nonneg (yt yp : List ℚ) : 0 ≤ meanSquaredError yt yp := by
  unfold meanSquaredError
  have := rss_nonneg yt yp
  positivity

/-- Claim C5: the log_info flag only selects whether report lines are
produced; for every input the returned full-precision metric values of
reg_evaluate and clf_evaluate are identical with logging on and off. -/
theorem c5_log_info_never_changes_result :
    ∀ (yt yp : List ℚ) (proba : Option NDArray),
      (regEvaluate yt yp true).2 = (regEvaluate yt yp false).2 ∧
      (clfEvaluate yt yp proba true).2 = (clfEvaluate yt yp proba false).2 := by
  intro yt yp proba
  exact ⟨rfl, rfl⟩

/-- Claim C2: cross-validation is deterministic.  The splitters are built
with the fixed random_state 42, so the ambient entropy that an unseeded
splitter would consume never reaches the permutation: two runs with
different entropy give identical fold assignments and identical reports. -/
theorem c2_cross_validate_deterministic :
    ∀ (m : ModelFn) (X : List (List ℚ)) (y : List ℚ) (k : ℕ) (b : Bool) (e1 e2 : ℕ),
      crossValidate m X y k b e1 = crossValidate m X y k b e2 ∧
      kFoldSplit k (some 42) e1 X.length = kFoldSplit k (some 42) e2 X.length ∧
      stratifiedKFoldSplit k (some 42) e1 y = stratifiedKFoldSplit k (some 42) e2 y := by
  intro m X y k b e1 e2
  exact ⟨rfl, rfl, rfl⟩

/-- Claim C7: on a perfect regression prediction the evaluator returns
RMSE, MSE and MAE all 0 and an R2 of 1. -/
theorem c7_perfect_regression (yt yp : List ℚ) (lg : Bool)
    (h1 : 1 ≤ yt.length) (h2 : yt = yp) :
    (regEvaluate yt yp lg).2.rmse = 0 ∧ (regEvaluate yt yp lg).2.mse = 0 ∧
      (regEvaluate yt yp lg).2.mae = 0 ∧ (regEvaluate yt yp lg).2.r2 = 1 := by
  subst h2
  refine ⟨?_, ?_, ?_, ?_⟩ <;>
    simp [regEvaluate, rmse_self, mse_self, mae_self, r2Score_self]

/-- Witness for claim C7 at the concrete input y_true = y_pred = [1, 2]. -/
theorem c7_witness :
    1 ≤ ([1, 2] : List ℚ).length ∧
      (regEvaluate [1, 2] [1, 2] true).2.rmse = 0 ∧
      (regEvaluate [1, 2] [1, 2] true).2.mse = 0 ∧
      (regEvaluate [1, 2] [1, 2] true).2.mae = 0 ∧
      (regEvaluate [1, 2] [1, 2] true).2.r2 = 1 :=
  ⟨by decide, c7_perfect_regression [1, 2] [1, 2] true (by decide) rfl⟩

/-- Claim C9: the regression metrics satisfy the standard algebraic
relations: the returned rmse squares to the returned mse (equivalently is
its square root), and on a target with nonzero total sum of squares the
returned r2 is one minus the residual sum of squares over the total sum of
squares. -/
theorem c9_metric_relations (yt yp : List ℚ) (lg : Bool)
    (hlen : yt.length = yp.length) (htss : tss yt ≠ 0) :
    (regEvaluate yt yp lg).2.rmse ^ 2 = ((regEvaluate yt yp lg).2.mse : ℝ) ∧
      (regEvaluate yt yp lg).2.rmse = Real.sqrt ((regEvaluate yt yp lg).2.mse : ℝ) ∧
      (regEvaluate yt yp lg).2.r2 = 1 - rss yt yp / tss yt := by
  refine ⟨?_, ?_, ?_⟩
  · show rootMeanSquaredError yt yp ^ 2 = ((meanSquaredError yt yp : ℚ) : ℝ)
    unfold rootMeanSquaredError
    refine Real.sq_sqrt ?_
    exact_mod_cast mse_nonneg yt yp
  · rfl
  · show r2Score yt yp = 1 - rss yt yp / tss yt
    unfold r2Score
    rw [if_neg htss]

/-- Witness for claim C9 at the concrete input y_true = [1, 2],
y_pred = [1, 3]. -/
theorem c9_witness :
    ([1, 2] : List ℚ).length = ([1, 3] : List ℚ).length ∧ tss [1, 2] ≠ 0 ∧
      ((regEvaluate [1, 2] [1, 3] false).2.rmse ^ 2 =
        ((regEvaluate [1, 2] [1, 3] false).2.mse : ℝ) ∧
      (regEvaluate [1, 2] [1, 3] false).2.rmse =
        Real.sqrt ((regEvaluate [1, 2] [1, 3] false).2.mse : ℝ) ∧
      (regEvaluate [1, 2] [1, 3] false).2.r2 = 1 - rss [1, 2] [1, 3] / tss [1, 2]) :=
  ⟨by decide, by norm_num [tss, npMean], c9_metric_relations [1, 2] [1, 3] false (by decide)
    (by norm_num [tss, npMean])⟩

lemma countP_zip_self_eq (l : List ℚ) :
    (l.zip l).countP (fun p => p.1 == p.2) = l.length := by
  induction l with
  | nil => simp
  | cons a t ih => simp [List.zip_cons_cons, List.countP_cons, ih]

lemma truePos_self (l : List ℚ) (c : ℚ) : truePos l l c = l.count c := by
  induction l with
  | nil => simp [truePos]
  | cons a t ih =>
      simp [truePos, List.zip_cons_cons, List.countP_cons, List.count_cons] at ih ⊢
      rw [ih]

lemma accuracyScore_self (l : List ℚ) (h : l ≠ []) : accuracyScore l l = 1 := by
  unfold accuracyScore
  rw [countP_zip_self_eq]
  have hn : (l.length : ℚ) ≠ 0 := by
    exact_mod_cast Nat.pos_iff_ne_zero.mp (List.length_pos.mpr h)
  exact div_self hn

lemma count_cast_ne_zero {l : List ℚ} {c : ℚ} (hc : c ∈ l) : (l.count c : ℚ) ≠ 0 := by
  have := List.count_pos_iff.mpr hc
  exact_mod_cast Nat.pos_iff_ne_zero.mp this

lemma precAt_self {l : List ℚ} {c : ℚ} (hc : c ∈ l) : precAt l l c = 1 := by
  unfold precAt
  rw [if_neg (by exact_mod_cast Nat.pos_iff_ne_zero.mp (List.count_pos_iff.mpr hc)),
    truePos_self]
  exact div_self (count_cast_ne_zero hc)

lemma recAt_self {l : List ℚ} {c : ℚ} (hc : c ∈ l) : recAt l l c = 1 := by
  unfold recAt
  rw [if_neg (by exact_mod_cast Nat.pos_iff_ne_zero.mp (List.count_pos_iff.mpr hc)),
    truePos_self]
  exact div_self (count_cast_ne_zero hc)

lemma f1At_self {l : List ℚ} {c : ℚ} (hc : c ∈ l) : f1At l l c = 1 := by
  unfold f1At
  rw [precAt_self hc, recAt_self hc]
  norm_num

lemma sum_count_toFinset (l : List ℚ) :
    Finset.sum l.toFinset (fun c => ((l.count c : ℕ) : ℚ)) = (l.length : ℚ) := by
  rw [← Nat.cast_sum]
  congr 1
  simp

lemma weightedAvgBy_self (l : List ℚ) (g : ℚ → ℚ) (h : l ≠ [])
    (hg : ∀ c ∈ l, g c = 1) : weightedAvgBy l l g = 1 := by
  unfold weightedAvgBy
  have hset : (l ++ l).toFinset = l.toFinset := by
    simp [List.toFinset_append]
  rw [hset]
  have hsum : Finset.sum l.toFinset (fun c => (l.count c : ℚ) * g c) =
      Finset.sum l.toFinset (fun c => ((l.count c : ℕ) : ℚ)) := by
    refine Finset.sum_congr rfl ?_
    intro c hc
    rw [hg c (List.mem_toFinset.mp hc), mul_one]
  rw [hsum, sum_count_toFinset]
  have hn : (l.length : ℚ) ≠ 0 := by
    exact_mod_cast Nat.pos_iff_ne_zero.mp (List.length_pos.mpr h)
  exact div_self hn

/-- Claim C8: on a perfect classification prediction the evaluator returns
accuracy, weighted precision, weighted recall and weighted F1 all equal to
1, whatever the probability argument and the logging flag. -/
theorem c8_perfect_classification (yt yp : List ℚ) (proba : Option NDArray) (lg : Bool)
    (h1 : yt ≠ []) (h2 : yt = yp) :
    ∃ rest, (clfEvaluate yt yp proba lg).2 =
      [("accuracy", 1), ("precision", 1), ("recall", 1), ("f1", 1)] ++ rest := by
  subst h2
  have ha : accuracyScore yt yt = 1 := accuracyScore_self yt h1
  have hp : precisionScore yt yt = 1 :=
    weightedAvgBy_self yt _ h1 (fun c hc => precAt_self hc)
  have hr : recallScore yt yt = 1 :=
    weightedAvgBy_self yt _ h1 (fun c hc => recAt_self hc)
  have hf : f1Score yt yt = 1 :=
    weightedAvgBy_self yt _ h1 (fun c hc => f1At_self hc)
  have hres : (clfEvaluate yt yt proba lg).2 =
      ([("accuracy", 1), ("precision", 1), ("recall", 1), ("f1", 1)] : List (String × ℚ)) ++
        aucEntries (match proba with
          | none => none
          | some a => (aucCompute yt a).toOption) := by
    simp only [clfEvaluate, ha, hp, hr, hf]
  exact ⟨_, hres⟩

/-- Witness for claim C8 at the concrete input y_true = y_pred = [3, 4]. -/
theorem c8_witness :
    ([3, 4] : List ℚ) ≠ [] ∧
      ∃ rest, (clfEvaluate [3, 4] [3, 4] none true).2 =
        [("accuracy", 1), ("precision", 1), ("recall", 1), ("f1", 1)] ++ rest :=
  ⟨by decide, c8_perfect_classification [3, 4] [3, 4] none true (by decide) rfl⟩

/-- Claim C1: any failure inside the guarded AUC computation is swallowed:
clf_evaluate still returns the accuracy, precision, recall and f1 mapping,
with the auc key simply omitted. -/
theorem c1_auc_failure_swallowed (yt yp : List ℚ) (a : NDArray) (lg : Bool) (msg : String)
    (h : aucCompute yt a = Except.error msg) :
    (clfEvaluate yt yp (some a) lg).2 =
      [("accuracy", accuracyScore yt yp), ("precision", precisionScore yt yp),
       ("recall", recallScore yt yp), ("f1", f1Score yt yp)] := by
  simp [clfEvaluate, h, aucEntries, Except.toOption]

/-- Witness for claim C1: a single-class target makes roc_auc_score raise,
and the evaluation still returns the four-key mapping. -/
theorem c1_witness :
    aucCompute [5, 5] ⟨[2, 2], [1, 0, 1, 0]⟩ = Except.error oneClassErrMsg ∧
      (clfEvaluate [5, 5] [5, 5] (some ⟨[2, 2], [1, 0, 1, 0]⟩) false).2 =
        [("accuracy", accuracyScore [5, 5] [5, 5]),
         ("precision", precisionScore [5, 5] [5, 5]),
         ("recall", recallScore [5, 5] [5, 5]),
         ("f1", f1Score [5, 5] [5, 5])] :=
  ⟨rfl, c1_auc_failure_swallowed [5, 5] [5, 5] ⟨[2, 2], [1, 0, 1, 0]⟩ false oneClassErrMsg rfl⟩

/-- Claim C10: a one-dimensional probability array makes the column-count
check shape[1] itself raise inside the guarded block; the failure is
swallowed and the call returns the mapping without an auc key. -/
theorem c10_one_dim_proba_degrades (yt yp : List ℚ) (lg : Bool) (a : NDArray)
    (h : a.shape.length = 1) :
    aucCompute yt a = Except.error indexErrMsg ∧
      (clfEvaluate yt yp (some a) lg).2 =
        [("accuracy", accuracyScore yt yp), ("precision", precisionScore yt yp),
         ("recall", recallScore yt yp), ("f1", f1Score yt yp)] := by
  obtain ⟨x, hx⟩ := List.length_eq_one.mp h
  have hdim : a.dim 1 = Except.error indexErrMsg := by
    unfold NDArray.dim
    rw [hx]
    rfl
  have hauc : aucCompute yt a = Except.error indexErrMsg := by
    unfold aucCompute
    rw [hdim]
    rfl
  refine ⟨hauc, ?_⟩
  simp [clfEvaluate, hauc, aucEntries, Except.toOption]

/-- Witness for claim C10 at a concrete one-dimensional probability array. -/
theorem c10_witness :
    (NDArray.mk [2] [1, 0]).shape.length = 1 ∧
      aucCompute [0, 1] ⟨[2], [1, 0]⟩ = Except.error indexErrMsg ∧
      (clfEvaluate [0, 1] [0, 1] (some ⟨[2], [1, 0]⟩) true).2 =
        [("accuracy", accuracyScore [0, 1] [0, 1]),
         ("precision", precisionScore [0, 1] [0, 1]),
         ("recall", recallScore [0, 1] [0, 1]),
         ("f1", f1Score [0, 1] [0, 1])] :=
  ⟨rfl, c10_one_dim_proba_degrades [0, 1] [0, 1] true ⟨[2], [1, 0]⟩ rfl⟩

lemma except_bind_ok {α β : Type} (x : α) (f : α → Except String β) :
    (Except.ok x : Except String α) >>= f = f x := rfl

lemma aucCompute_ok_of_wellFormed {yt : List ℚ} {a : NDArray}
    (h : wellFormedProba yt a) : ∃ v, aucCompute yt a = Except.ok v := by
  rcases h with ⟨hshape, hcls⟩ | ⟨c, hshape, hc2, hcls, hc1, hrows⟩
  · have hdim : a.dim 1 = Except.ok 2 := by
      unfold NDArray.dim
      rw [hshape]
      rfl
    have hcol : a.col 1 = Except.ok
        ((List.range yt.length).map (fun i => a.data.getD (i * 2 + 1) 0)) := by
      unfold NDArray.col
      rw [hshape]
      rfl
    obtain ⟨x, y, hxy⟩ := List.length_eq_two.mp hcls
    have hroc : rocAucScoreBinary yt
        ((List.range yt.length).map (fun i => a.data.getD (i * 2 + 1) 0)) =
        Except.ok (mannWhitneyAuc (yt.map (fun v => v == y))
          ((List.range yt.length).map (fun i => a.data.getD (i * 2 + 1) 0))) := by
      unfold rocAucScoreBinary
      rw [if_neg (by simp), hxy]
    refine ⟨mannWhitneyAuc (yt.map (fun v => v == y))
      ((List.range yt.length).map (fun i => a.data.getD (i * 2 + 1) 0)), ?_⟩
    unfold aucCompute
    rw [hdim, except_bind_ok, if_pos rfl, hcol, except_bind_ok, hroc]
  · have hdim : a.dim 1 = Except.ok c := by
      unfold NDArray.dim
      rw [hshape]
      rfl
    have hany : ((List.range yt.length).any (fun i => rowSum a i c != 1)) = false := by
      rw [List.any_eq_false]
      intro i hi
      have := List.all_eq_true.mp hrows i hi
      simpa using this
    have hov : ∃ v, rocAucScoreOvrWeighted yt a = Except.ok v := by
      refine ⟨(((List.range c).map (fun j =>
        (yt.count ((sortedClasses yt).getD j 0) : ℚ) *
          mannWhitneyAuc (yt.map (fun v => v == (sortedClasses yt).getD j 0))
            ((List.range yt.length).map (fun i => a.data.getD (i * c + j) 0)))).sum) /
        (yt.length : ℚ), ?_⟩
      unfold rocAucScoreOvrWeighted
      rw [hshape]
      dsimp only
      rw [if_neg (by simp), if_neg (by simp [hcls]), if_neg (by rw [hcls]; omega), hany]
      rfl
    obtain ⟨v, hv⟩ := hov
    refine ⟨v, ?_⟩
    unfold aucCompute
    rw [hdim, except_bind_ok, if_neg hc2, hv]

/-- Claim C3: the auc key is absent from the classification mapping whenever
no probabilities are supplied, and present whenever a well-formed binary or
multiclass probability matrix is supplied. -/
theorem c3_auc_key_presence (yt yp : List ℚ) (lg : Bool) (a : NDArray)
    (h : wellFormedProba yt a) :
    (clfEvaluate yt yp none lg).2.map Prod.fst =
      ["accuracy", "precision", "recall", "f1"] ∧
    (clfEvaluate yt yp (some a) lg).2.map Prod.fst =
      ["accuracy", "precision", "recall", "f1", "auc"] := by
  obtain ⟨v, hv⟩ := aucCompute_ok_of_wellFormed h
  constructor
  · simp [clfEvaluate, aucEntries]
  · simp [clfEvaluate, hv, aucEntries, Except.toOption]

/-- Witness for claim C3 at a concrete well-formed binary probability
matrix over the target [0, 1]. -/
theorem c3_witness :
    wellFormedProba [0, 1] ⟨[2, 2], [3/4, 1/4, 1/4, 3/4]⟩ ∧
      (clfEvaluate [0, 1] [1, 1] none false).2.map Prod.fst =
        ["accuracy", "precision", "recall", "f1"] ∧
      (clfEvaluate [0, 1] [1, 1] (some ⟨[2, 2], [3/4, 1/4, 1/4, 3/4]⟩) false).2.map Prod.fst =
        ["accuracy", "precision", "recall", "f1", "auc"] :=
  ⟨Or.inl ⟨rfl, rfl⟩,
    c3_auc_key_presence [0, 1] [1, 1] false ⟨[2, 2], [3/4, 1/4, 1/4, 3/4]⟩ (Or.inl ⟨rfl, rfl⟩)⟩

lemma kFoldSplit_ok_length {k : ℕ} {rs : Option ℕ} {e n : ℕ}
    {s : List (List ℕ × List ℕ)} (h : kFoldSplit k rs e n = Except.ok s) :
    s.length = k := by
  unfold kFoldSplit at h
  dsimp only at h
  split_ifs at h
  injection h with h
  rw [← h]
  simp

lemma stratifiedKFoldSplit_ok_length {k : ℕ} {rs : Option ℕ} {e : ℕ} {y : List ℚ}
    {s : List (List ℕ × List ℕ)} (h : stratifiedKFoldSplit k rs e y = Except.ok s) :
    s.length = k := by
  unfold stratifiedKFoldSplit at h
  dsimp only at h
  split_ifs at h
  injection h with h
  rw [← h]
  simp

lemma crossValidate_ok_shape {m : ModelFn} {X : List (List ℚ)} {y : List ℚ}
    {k : ℕ} {b : Bool} {e : ℕ} {lines : List RLine}
    (h : crossValidate m X y k b e = Except.ok lines) :
    ∃ scores : List (ℚ × ℚ), scores.length = k ∧
      lines = (scores.enumFrom 1).map
          (fun s => RLine.info (foldCells s.1 k b s.2.1 s.2.2)) ++
        [RLine.info (avgCells b (npMean (scores.map Prod.fst))
          (npMean (scores.map Prod.snd)))] := by
  unfold crossValidate at h
  cases b with
  | false =>
      rw [if_neg (by simp)] at h
      cases hks : kFoldSplit k (some 42) e X.length with
      | error msg => rw [hks] at h; exact absurd h (by simp [Bind.bind, Except.bind])
      | ok splits =>
          rw [hks, except_bind_ok] at h
          injection h with h
          exact ⟨splits.map (foldScore m X y false),
            by simp [kFoldSplit_ok_length hks], h.symm⟩
  | true =>
      rw [if_pos rfl] at h
      cases hks : stratifiedKFoldSplit k (some 42) e y with
      | error msg => rw [hks] at h; exact absurd h (by simp [Bind.bind, Except.bind])
      | ok splits =>
          rw [hks, except_bind_ok] at h
          injection h with h
          exact ⟨splits.map (foldScore m X y true),
            by simp [stratifiedKFoldSplit_ok_length hks], h.symm⟩

/-- Claim C6: every successful cross-validation run reports exactly k
per-fold metric pairs, enumerated in ascending order from fold 1, followed
by exactly one averaged line whose two values are the arithmetic means of
the per-fold metrics. -/
theorem c6_fold_reports (m : ModelFn) (X : List (List ℚ)) (y : List ℚ)
    (k : ℕ) (b : Bool) (e : ℕ) (lines : List RLine)
    (h : crossValidate m X y k b e = Except.ok lines) :
    ∃ scores : List (ℚ × ℚ), scores.length = k ∧
      lines = (scores.enumFrom 1).map
          (fun s => RLine.info (foldCells s.1 k b s.2.1 s.2.2)) ++
        [RLine.info (avgCells b ((scores.map Prod.fst).sum / (k : ℚ))
          ((scores.map Prod.snd).sum / (k : ℚ)))] := by
  obtain ⟨scores, hlen, hl⟩ := crossValidate_ok_shape h
  refine ⟨scores, hlen, ?_⟩
  rw [hl]
  have h1 : npMean (scores.map Prod.fst) = (scores.map Prod.fst).sum / (k : ℚ) := by
    simp [npMean, hlen]
  have h2 : npMean (scores.map Prod.snd) = (scores.map Prod.snd).sum / (k : ℚ) := by
    simp [npMean, hlen]
  rw [h1, h2]

/-- Witness for claim C6: a concrete 2-fold regression run over two rows. -/
theorem c6_witness :
    crossValidate (fun _ _ xv => xv.map (fun _ => (0 : ℚ))) [[1], [2]] [3, 4] 2 false 5 =
      Except.ok ((crossValidate (fun _ _ xv => xv.map (fun _ => (0 : ℚ)))
        [[1], [2]] [3, 4] 2 false 5).toOption.getD []) ∧
    ∃ scores : List (ℚ × ℚ), scores.length = 2 ∧
      (crossValidate (fun _ _ xv => xv.map (fun _ => (0 : ℚ)))
          [[1], [2]] [3, 4] 2 false 5).toOption.getD [] =
        (scores.enumFrom 1).map
            (fun s => RLine.info (foldCells s.1 2 false s.2.1 s.2.2)) ++
          [RLine.info (avgCells false ((scores.map Prod.fst).sum / (2 : ℚ))
            ((scores.map Prod.snd).sum / (2 : ℚ)))] :=
  ⟨rfl, c6_fold_reports (fun _ _ xv => xv.map (fun _ => (0 : ℚ))) [[1], [2]] [3, 4]
    2 false 5 _ rfl⟩

lemma linePrecs_foldCells (i k : ℕ) (b : Bool) (a f : ℚ) :
    linePrecs (RLine.info (foldCells i k b a f)) = [4, 4] := by
  cases b <;> rfl

lemma linePrecs_avgCells (b : Bool) (a f : ℚ) :
    linePrecs (RLine.info (avgCells b a f)) = [4, 4] := by
  cases b <;> rfl

lemma lineTagged_foldCells (i k : ℕ) (b : Bool) (a f : ℚ) :
    lineTagged (RLine.info (foldCells i k b a f)) = true := by
  cases b <;> rfl

lemma lineTagged_avgCells (b : Bool) (a f : ℚ) :
    lineTagged (RLine.info (avgCells b a f)) = true := by
  cases b <;> rfl

lemma countRows_precs (vc : List (ℚ × ℕ)) :
    ((vc.map (fun lc => [Cell.str (toString lc.1), Cell.int lc.2])).flatMap
      (fun r => r.flatMap cellPrecs)) = [] := by
  induction vc with
  | nil => rfl
  | cons a t ih => simpa [cellPrecs] using ih

/-- Claim C4, counterexample: the per-fold and averaged lines printed by
_cross_validate render their metric values at 4 decimal places, so not
every numeric cell of the console output of the three functions is at 2
decimal places. -/
theorem c4_counterexample :
    4 ∈ reportPrecs c4run ∧ ¬ (∀ p ∈ reportPrecs c4run, p = 2) := by
  constructor
  · decide
  · decide

/-- Claim C4 as amended: every float value printed by _cross_validate is
rendered at 4 decimal places, every float value printed by reg_evaluate and
clf_evaluate at 2 decimal places (label counts are rendered as plain
integers), and every informational line of all three functions begins with
the textual tag of the module. -/
theorem c4_amended_formats :
    (∀ (m : ModelFn) (X : List (List ℚ)) (y : List ℚ) (k : ℕ) (b : Bool) (e : ℕ),
      ((reportPrecs ((crossValidate m X y k b e).toOption.getD [])).all
        (fun p => p == 4)) = true ∧
      (((crossValidate m X y k b e).toOption.getD []).all lineTagged) = true) ∧
    (∀ (yt yp : List ℚ) (lg : Bool),
      ((reportPrecs (regEvaluate yt yp lg).1).all (fun p => p == 2)) = true ∧
      ((regEvaluate yt yp lg).1.all lineTagged) = true) ∧
    (∀ (yt yp : List ℚ) (proba : Option NDArray) (lg : Bool),
      ((reportPrecs (clfEvaluate yt yp proba lg).1).all (fun p => p == 2)) = true ∧
      ((clfEvaluate yt yp proba lg).1.all lineTagged) = true) := by
  refine ⟨?_, ?_, ?_⟩
  · intro m X y k b e
    cases hcv : crossValidate m X y k b e with
    | error msg => constructor <;> simp [Except.toOption, reportPrecs]
    | ok lines =>
        obtain ⟨scores, hlen, hl⟩ := crossValidate_ok_shape hcv
        have hget : (Except.ok lines : Except String (List RLine)).toOption.getD [] = lines := rfl
        rw [hget, hl]
        constructor
        · rw [List.all_eq_true]
          intro p hp
          rw [reportPrecs, List.mem_flatMap] at hp
          obtain ⟨l, hlmem, hpl⟩ := hp
          rw [List.mem_append] at hlmem
          rcases hlmem with hlmem | hlmem
          · obtain ⟨s, _, rfl⟩ := List.mem_map.mp hlmem
            rw [linePrecs_foldCells] at hpl
            simp at hpl
            simp [hpl]
          · simp only [List.mem_singleton] at hlmem
            subst hlmem
            rw [linePrecs_avgCells] at hpl
            simp at hpl
            simp [hpl]
        · rw [List.all_eq_true]
          intro l hlmem
          rw [List.mem_append] at hlmem
          rcases hlmem with hlmem | hlmem
          · obtain ⟨s, _, rfl⟩ := List.mem_map.mp hlmem
            exact lineTagged_foldCells _ _ _ _ _
          · simp only [List.mem_singleton] at hlmem
            subst hlmem
            exact lineTagged_avgCells _ _ _
  · intro yt yp lg
    cases lg with
    | false => exact ⟨rfl, rfl⟩
    | true =>
        constructor
        · simp [regEvaluate, reportPrecs, linePrecs, cellPrecs]
        · simp [regEvaluate, lineTagged]
          constructor <;> decide
  · intro yt yp proba lg
    cases lg with
    | false => exact ⟨rfl, rfl⟩
    | true =>
        constructor
        · simp only [clfEvaluate, reportPrecs, List.flatMap_cons, linePrecs]
          cases hopt : (match proba with
            | none => none
            | some a => (aucCompute yt a).toOption : Option ℚ) with
          | none =>
              simp [hopt, linePrecs, cellPrecs, countRows_precs, List.all_append]
          | some v =>
              simp [hopt, linePrecs, cellPrecs, countRows_precs, List.all_append]
        · cases hopt : (match proba with
            | none => none
            | some a => (aucCompute yt a).toOption : Option ℚ) with
          | none =>
              simp [clfEvaluate, hopt, lineTagged]
              constructor <;> decide
          | some v =>
              simp [clfEvaluate, hopt, lineTagged]
              constructor <;> decide

end Lunax
